import Mathlib

/-!
# GoodStoresDeleciousFood: store controller and review schema

A shallow embedding of `controllers/storeController.js` and `models/Review.js`.
Handlers become pure functions of the request data and the collections they read;
the persistence engine (MongoDB through Mongoose) is represented by list operations
on the collections.
-/

namespace GoodStores

/-! ## JavaScript values -/

/-- Document identifiers: ObjectIds, represented by their string form, the 24 lower-case
hexadecimal digits that `toString` gives. -/
abbrev ObjectId := String

/-- Numbers met by the page arithmetic: NaN or an integer. JavaScript numbers are IEEE
doubles: `JSNum.mul` and `JSNum.sub` below compute the exact integer result, which is
the double result as long as no rounding occurs; `toDouble` gives the rounding, and
`skipDouble` is line 24 with every intermediate value rounded. The two agree on pages
of magnitude up to 2^53 (`skipDouble_int`, `skipDouble_eq_skipOf`). -/
inductive JSNum where
  | nan
  | int (z : Int)
deriving DecidableEq, Repr

/-- Values that `page` can hold on line 22 of the controller: the route parameter
(a string) or the numeric default. -/
inductive JSValue where
  | str (s : String)
  | num (n : JSNum)
deriving DecidableEq, Repr

/-- Errors a handler can throw. -/
inductive JSError where
  | typeError (msg : String)
  | error (msg : String)
deriving DecidableEq, Repr

/-- Outcome of running a handler. `engineDefined` marks requests whose outcome depends on
behaviour outside this development: a page string that is not classified by
`stringToNumber`, or a query whose skip is not a non-negative integer. -/
inductive Handled (ρ : Type) where
  | sent (r : ρ)
  | threw (e : JSError)
  | engineDefined
deriving DecidableEq, Repr

/-- Value of the decimal digits `cs`, most significant first. -/
def parseDigits (cs : List Char) : Nat :=
  cs.foldl (fun acc c => acc * 10 + (c.toNat - 48)) 0

/-- The mathematical value that string to number coercion (`ToNumber` applied to a
string) reads, on the strings it is needed for: the empty string is 0, an optionally
signed run of decimal digits is that integer, and a string that starts with an ASCII
letter other than `I` is NaN (every numeric literal starts with white space, a sign, a
digit, a dot or `Infinity`). The number JavaScript obtains is this value rounded to a
double (`toDouble`), the value itself up to magnitude 2^53. Other strings (fractions,
exponents, hexadecimal, padded with white space, digits followed by letters, ...) are
not classified: `none`. -/
def stringToNumber (s : String) : Option JSNum :=
  let cs := s.data
  if cs = [] then some (.int 0)
  else if cs.all Char.isDigit then some (.int (parseDigits cs))
  else match cs with
    | [] => none
    | c :: ds =>
      if c = '-' then
        if ds ≠ [] ∧ ds.all Char.isDigit then some (.int (-(parseDigits ds : Int))) else none
      else if c = '+' then
        if ds ≠ [] ∧ ds.all Char.isDigit then some (.int (parseDigits ds)) else none
      else if c.isAlpha ∧ c ≠ 'I' then some .nan
      else none

/-- Numeric coercion of a value used as an arithmetic operand. -/
def toNumber : JSValue → Option JSNum
  | .num n => some n
  | .str s => stringToNumber s

/-- Number multiplication on `JSNum`. -/
def JSNum.mul : JSNum → JSNum → JSNum
  | .int a, .int b => .int (a * b)
  | _, _ => .nan

/-- Number subtraction on `JSNum`. -/
def JSNum.sub : JSNum → JSNum → JSNum
  | .int a, .int b => .int (a - b)
  | _, _ => .nan

/-- Template-literal rendering of a number. -/
def JSNum.toStr : JSNum → String
  | .nan => "NaN"
  | .int z => if z < 0 then "-" ++ Nat.repr z.natAbs else Nat.repr z.natAbs

/-- Template-literal rendering of a value. -/
def JSValue.toStr : JSValue → String
  | .str s => s
  | .num n => n.toStr

/-- The expression `p || d` for an optional string `p`: absent and empty strings are
falsy, every other string is truthy. -/
def orDefault (p : Option String) (d : JSValue) : JSValue :=
  match p with
  | none => d
  | some s => if s = "" then d else .str s

/-- The value of `Math.ceil(a / b)` for non-negative integers `a` and positive `b`. -/
def ceilDiv (a b : Nat) : Nat := (a + b - 1) / b

/-- What array destructuring (`const [a, b] = e`) can be applied to in the controller:
the promise returned by `Promise.all`, or the array it resolves to. -/
inductive Awaitable (α : Type) where
  | promise (resolved : α)
  | value (v : α)

/-- The call `Promise.all([a, b])`: a promise for the pair of results. -/
def promiseAll {α β : Type} (a : α) (b : β) : Awaitable (α × β) := .promise (a, b)

/-- The expression `await e`: the value the promise resolves to. -/
def await {α : Type} : Awaitable α → Awaitable α
  | .promise v => .value v
  | .value v => .value v

/-- The declaration `const [a, b] = e`: a promise is not iterable, so destructuring it
throws. -/
def destructurePair {α β : Type} : Awaitable (α × β) → Except JSError (α × β)
  | .value p => .ok p
  | .promise _ => .error (.typeError "object is not iterable")

/-! ## Data model -/

/-- Modelled from the spec: the Store schema is not among the sources. Location
sub-document of a store: a type tag, coordinates and an address. -/
structure Location where
  type : Option String
  coordinates : List Int
  address : String
deriving DecidableEq, Repr

/-- Modelled from the spec: the Store schema is not among the sources. Store document
with the fields the controller reads; `tags` is `none` when the document has no `tags`
field. -/
structure Store where
  _id : ObjectId
  name : String
  author : ObjectId
  tags : Option (List String)
  created : Nat
  location : Location
deriving DecidableEq, Repr

/-- Review document, as declared by `reviewSchema`. -/
structure Review where
  created : Nat
  author : ObjectId
  store : ObjectId
  text : String
  rating : Option ℚ
deriving DecidableEq, Repr

/-! ## getStores -/

/-- The page size fixed on line 23. -/
def limit : Nat := 4

/-- The value of `page` on line 22. -/
def pageOf (pageParam : Option String) : JSValue :=
  orDefault pageParam (.num (.int 1))

/-- The value of `skip` on line 24, `(page * limit) - limit`, computed on the exact
integers. It is the value JavaScript computes while the page has magnitude at most
2^53; `skipDouble` is the double computation for every page. -/
def skipOf (page : JSValue) : Option JSNum :=
  (toNumber page).map fun n => (n.mul (.int limit)).sub (.int limit)

/-- Binary exponent of the spacing of doubles around `m`: 0 below 2^53, and one more
for each further doubling. The first argument bounds the recursion; `m` itself is
enough. -/
def ulpExp : Nat → Nat → Nat
  | 0, _ => 0
  | fuel + 1, m => if m < 2 ^ 53 then 0 else ulpExp fuel (m / 2) + 1

/-- The natural number nearest to `m` that has a 53-bit significand, ties going to the
even significand: IEEE round-to-nearest-even on a non-negative integer. -/
def roundNat (m : Nat) : Nat :=
  let e := ulpExp m m
  let q := m / 2 ^ e
  let r := m % 2 ^ e
  if 2 * r < 2 ^ e then q * 2 ^ e
  else if 2 ^ e < 2 * r then (q + 1) * 2 ^ e
  else if q % 2 = 0 then q * 2 ^ e
  else (q + 1) * 2 ^ e

/-- The double that represents the integer `z`. Magnitudes from 10^20 on are not
classified (`none`): a literal of more than 20 significant digits may be rounded from
a truncated value, and far larger values overflow. -/
def toDouble (z : Int) : Option Int :=
  if z.natAbs < 10 ^ 20 then
    some (if z < 0 then -(roundNat z.natAbs : Int) else (roundNat z.natAbs : Int))
  else none

/-- Rounding of an exact result to the double that JavaScript stores. -/
def JSNum.toDouble : JSNum → Option JSNum
  | .nan => some .nan
  | .int z => (GoodStores.toDouble z).map .int

/-- The value of `skip` on line 24 in double arithmetic: the page operand is the double
nearest to the value read, and the product and the difference are each rounded to the
nearest double. -/
def skipDouble (page : JSValue) : Option JSNum :=
  ((toNumber page).bind JSNum.toDouble).bind fun n =>
    ((n.mul (.int limit)).toDouble).bind fun m => (m.sub (.int limit)).toDouble

/-- Modelled from the spec: the Store model (its schema and the `reviews` virtual) is not
among the sources. `.sort({ created: 'desc' })` orders stores newest first. -/
def sortCreatedDesc (db : List Store) : List Store :=
  db.insertionSort (fun a b => b.created ≤ a.created)

/-- Modelled from the spec: `.populate('reviews')` attaches to a store the reviews that
reference it. -/
def populate (reviews : List Review) (s : Store) : Store × List Review :=
  (s, reviews.filter (fun r => r.store = s._id))

/-- The query of lines 26 to 31 for a non-negative integer skip. -/
def findPage (db : List Store) (reviews : List Review) (skip lim : Nat) :
    List (Store × List Review) :=
  (((sortCreatedDesc db).drop skip).take lim).map (populate reviews)

/-- Responses of `getStores`. `redirect asked pages url` is the flash message built from
`page` and `pages` followed by the redirect to `url`; `render` carries the locals passed
to the `stores` view. -/
inductive StoresResponse where
  | redirect (asked : String) (pages : Nat) (url : String)
  | render (title : String) (stores : List (Store × List Review)) (page : JSValue)
      (pages : Nat) (count : Nat)
deriving DecidableEq, Repr

/-- The redirect target on line 38. -/
def pageUrl (pages : Nat) : String := "/stores/page/" ++ Nat.repr pages

/-- Truthiness of a number: NaN and 0 are falsy. -/
def JSNum.truthy : JSNum → Bool
  | .nan => false
  | .int z => z ≠ 0

/-- The result of `storesPromise` (lines 26 to 31): the stores selected with
`skip(skip).limit(limit)`. `none` when the skip is not a non-negative integer. -/
def storesPromise (db : List Store) (reviews : List Review) (page : JSValue) :
    Option (List (Store × List Review)) :=
  match skipOf page with
  | some (.int skip) => if 0 ≤ skip then some (findPage db reviews skip.toNat limit) else none
  | _ => none

/-- The result of `countPromise` (line 33): `Store.count()`. -/
def countPromise (db : List Store) : Nat := db.length

/-- The handler `getStores` (lines 21 to 42). -/
def getStores (db : List Store) (reviews : List Review) (pageParam : Option String) :
    Handled StoresResponse :=
  let page := pageOf pageParam
  match skipOf page, storesPromise db reviews page with
  | some skip, some found =>
    match destructurePair (await (promiseAll found (countPromise db))) with
    | .error e => .threw e
    | .ok (stores, count) =>
      let pages := ceilDiv count limit
      if stores.length = 0 ∧ skip.truthy then
        .sent (.redirect page.toStr pages (pageUrl pages))
      else
        .sent (.render "Stores" stores page pages count)
  | _, _ => .engineDefined

/-- A store used to build concrete collections. -/
def sampleStore (i : Nat) : Store :=
  { _id := Nat.repr i, name := "Store " ++ Nat.repr i, author := "u1", tags := some ["cafe"],
    created := i, location := { type := some "Point", coordinates := [0, 0], address := "x" } }

/-- A collection of `n` stores. -/
def sampleStores (n : Nat) : List Store := (List.range n).map sampleStore

/-! ## updateStore, confirmOwner, editStore -/

/-- Modelled from the spec: the User schema is not among the sources. The authenticated
principal `req.user`, with its id and its hearts. -/
structure User where
  _id : ObjectId
  hearts : List ObjectId
deriving DecidableEq, Repr

/-- The fields of `req.body` carried by an update. `location` is `none` when the body has
no `location` object. -/
structure UpdateBody where
  name : Option String
  tags : Option (List String)
  location : Option Location
deriving DecidableEq, Repr

/-- The request data read by `updateStore` and `editStore`. -/
structure StoreRequest where
  user : User
  id : ObjectId
  body : UpdateBody
deriving DecidableEq, Repr

/-- Field-wise application of an update document to a store. -/
def applyUpdate (s : Store) (b : UpdateBody) : Store :=
  { s with
    name := b.name.getD s.name
    tags := match b.tags with
      | some ts => some ts
      | none => s.tags
    location := b.location.getD s.location }

/-- The call `Store.findOneAndUpdate({ _id: id }, body, { new: true })`: the first store with the
given id is updated; the updated document (or `none`, for null) is returned together with
the collection after the call. -/
def findOneAndUpdate : List Store → ObjectId → UpdateBody → Option Store × List Store
  | [], _, _ => (none, [])
  | s :: rest, id, b =>
    if s._id = id then (some (applyUpdate s b), applyUpdate s b :: rest)
    else
      let r := findOneAndUpdate rest id b
      (r.1, s :: r.2)

/-- The call `Store.findOne({ _id: id })`. -/
def findOne (db : List Store) (id : ObjectId) : Option Store :=
  db.find? (fun s => s._id = id)

/-- Responses of `updateStore`: the success flash naming the store, then the redirect. -/
inductive UpdateResponse where
  | redirect (flashName : String) (url : String)
deriving DecidableEq, Repr

/-- The handler `updateStore` (lines 73 to 84), returning its outcome and the collection
after the call. `runValidators` stands for the update validators of the Store schema,
which is not among the sources. -/
def updateStore (runValidators : UpdateBody → Bool) (db : List Store) (req : StoreRequest) :
    Handled UpdateResponse × List Store :=
  match req.body.location with
  | none => (.threw (.typeError "cannot set property type of undefined"), db)
  | some loc =>
    let body := { req.body with location := some { loc with type := some "Point" } }
    if runValidators body then
      match findOneAndUpdate db req.id body with
      | (none, db1) => (.threw (.typeError "cannot read property name of null"), db1)
      | (some store, db1) =>
        (.sent (.redirect store.name ("/stores/" ++ store._id ++ "/edit")), db1)
    else (.threw (.error "ValidationError"), db)

/-- The guard `confirmOwner` (lines 87 to 91). -/
def confirmOwner (store : Store) (user : User) : Except JSError Unit :=
  if ¬ (store.author = user._id) then
    .error (.error "You Must own a store in order to edit it!")
  else .ok ()

/-- Responses of `editStore`: the edit form for a store. -/
inductive EditResponse where
  | render (title : String) (store : Store)
deriving DecidableEq, Repr

/-- The handler `editStore` (lines 93 to 100). -/
def editStore (db : List Store) (req : StoreRequest) : Handled EditResponse :=
  match findOne db req.id with
  | none => .threw (.typeError "cannot read property author of null")
  | some store =>
    match confirmOwner store req.user with
    | .error e => .threw e
    | .ok _ => .sent (.render ("Edit " ++ store.name) store)

/-! ## getStoresByTag -/

/-- The value of `tagQuery` on line 112: the tag itself, or `{ $exists: true }`. -/
inductive TagQuery where
  | tag (t : String)
  | fieldExists
deriving DecidableEq, Repr

/-- Line 112: `tag || { $exists: true }`. -/
def tagQuery (tag : Option String) : TagQuery :=
  match tag with
  | none => .fieldExists
  | some t => if t = "" then .fieldExists else .tag t

/-- Whether a store matches the filter `{ tags: q }`: `$exists: true` holds when the
document has the field, whatever its contents; a string matches an array field that
contains it. -/
def TagQuery.matchesStore (q : TagQuery) (s : Store) : Bool :=
  match q, s.tags with
  | .fieldExists, some _ => true
  | .fieldExists, none => false
  | .tag t, some ts => decide (t ∈ ts)
  | .tag _, none => false

/-- The call `Store.find({ tags: tagQuery })`. -/
def findByTagQuery (db : List Store) (q : TagQuery) : List Store :=
  db.filter q.matchesStore

/-- Modelled from the spec: the static `Store.getTagsList` is not among the sources. It
groups the stores by each of their tags and counts them, most used tag first. -/
def getTagsList (db : List Store) : List (String × Nat) :=
  let all := db.flatMap (fun s => s.tags.getD [])
  (all.eraseDups.map (fun t => (t, all.count t))).insertionSort (fun a b => b.2 ≤ a.2)

/-- Responses of `getStoresByTag`: the locals passed to the `tag` view. -/
inductive TagResponse where
  | render (title : String) (tags : List (String × Nat)) (tag : Option String)
      (stores : List Store)
deriving DecidableEq, Repr

/-- The handler `getStoresByTag` (lines 110 to 117). Line 115 destructures the result of
`Promise.all` without awaiting it. -/
def getStoresByTag (db : List Store) (tag : Option String) : Handled TagResponse :=
  let tagsPromise := getTagsList db
  let storesPromise := findByTagQuery db (tagQuery tag)
  match destructurePair (promiseAll tagsPromise storesPromise) with
  | .error e => .threw e
  | .ok (tags, stores) => .sent (.render "Tags" tags tag stores)

/-! ## heartStore -/

/-- The update operator `$pull`: removes every occurrence of the value. -/
def pull (xs : List ObjectId) (x : ObjectId) : List ObjectId :=
  xs.filter (fun y => y ≠ x)

/-- The update operator `$addToSet`: appends the value unless it is already present. -/
def addToSet (xs : List ObjectId) (x : ObjectId) : List ObjectId :=
  if x ∈ xs then xs else xs ++ [x]

/-- Hexadecimal digits, in either case. -/
def isHexDigit (c : Char) : Bool :=
  c.isDigit || (97 ≤ c.toNat && c.toNat ≤ 102) || (65 ≤ c.toNat && c.toNat ≤ 70)

/-- The cast Mongoose applies to `req.params.id` before the update: a string of 24
hexadecimal digits, in either case, is the ObjectId it spells, whose string form is in
lower case. Other strings are not classified (`none`): the cast rejects them with a
CastError, except strings of 12 characters, which the driver reads as raw bytes. -/
def castObjectId (id : String) : Option ObjectId :=
  if id.data.length = 24 ∧ id.data.all isHexDigit then some ⟨id.data.map Char.toLower⟩
  else none

/-- The method `obj.toString()` of an ObjectId (line 162): its 24 lower-case hexadecimal
digits, which is how ObjectIds are represented here. -/
def objectIdToString (obj : ObjectId) : String := obj

/-- The handler `heartStore` (lines 161 to 168). `reqUser` is `req.user`, the user as
loaded for this request; `doc` is the stored user document with that id, which
`findByIdAndUpdate` modifies; `id` is `req.params.id` as sent. The membership test of
line 163 compares strings; the update operator receives the id cast to an ObjectId. The
result is the stored document after the call, `none` when the cast is not classified. -/
def heartStore (reqUser doc : User) (id : String) : Option User :=
  let hearts := reqUser.hearts.map objectIdToString
  match castObjectId id with
  | none => none
  | some oid =>
    if hearts.contains id then some { doc with hearts := pull doc.hearts oid }
    else some { doc with hearts := addToSet doc.hearts oid }

/-! ## Review schema -/

/-- The fields supplied when a review is created. -/
structure ReviewInput where
  created : Option Nat
  author : Option ObjectId
  store : Option ObjectId
  text : Option String
  rating : Option ℚ
deriving DecidableEq, Repr

/-- Validators declared by `reviewSchema` (lines 4 to 28): the failures, as pairs of path
and message. `required` rejects an absent value and, on a string, the empty string; `min`
and `max` apply to a supplied rating only. -/
def reviewSchemaErrors (r : ReviewInput) : List (String × String) :=
  (if r.author.isNone then [("author", "You Must Supply an Author")] else []) ++
  (if r.store.isNone then [("store", "You Must Supply a Store")] else []) ++
  (if r.text.isNone ∨ r.text = some "" then [("text", "Your Review Must have text!")]
    else []) ++
  (match r.rating with
    | none => []
    | some x =>
      (if x < 1 then [("rating", "min")] else []) ++
      (if 5 < x then [("rating", "max")] else []))

/-- Creating a review at time `now`: validation, then the stored document with `created`
defaulted to `Date.now`. -/
def createReview (now : Nat) (r : ReviewInput) : Except (List (String × String)) Review :=
  match reviewSchemaErrors r, r.author, r.store, r.text with
  | [], some a, some s, some t =>
    .ok { created := r.created.getD now, author := a, store := s, text := t,
          rating := r.rating }
  | errs, _, _, _ => .error errs

/-! ## Concrete requests and documents -/

/-- An update of store `1` sent by user `u2`, who is not its author. -/
def foreignUpdate : StoreRequest :=
  { user := { _id := "u2", hearts := [] }
    id := "1"
    body :=
      { name := some "Hijacked"
        tags := none
        location := some { type := none, coordinates := [1, 2], address := "here" } } }

/-- The body of `foreignUpdate` once line 75 has set its location type. -/
def foreignUpdateBody : UpdateBody :=
  { name := some "Hijacked"
    tags := none
    location := some { type := some "Point", coordinates := [1, 2], address := "here" } }

/-- The store `sampleStore 1` after `foreignUpdate` is applied. -/
def hijackedStore : Store :=
  { _id := "1", name := "Hijacked", author := "u1", tags := some ["cafe"], created := 1,
    location := { type := some "Point", coordinates := [1, 2], address := "here" } }

/-- A store id in canonical form: 24 lower-case hexadecimal digits. -/
def heartedId : ObjectId := "5f1d7f3e9c2b4a0012ab346a"

/-- The same store id spelled with upper-case hexadecimal digits. -/
def heartedIdUpper : String := "5F1D7F3E9C2B4A0012AB346A"

/-- A store whose `tags` array is empty. -/
def untaggedStore : Store :=
  { _id := "9", name := "Plain", author := "u1", tags := some [], created := 9,
    location := { type := some "Point", coordinates := [0, 0], address := "x" } }

/-! ## Decimal rendering and parsing -/

theorem digitChar_toNat (d : Nat) (h : d < 10) : (Nat.digitChar d).toNat - 48 = d := by
  interval_cases d <;> rfl

theorem digitChar_isDigit (d : Nat) (h : d < 10) : (Nat.digitChar d).isDigit = true := by
  interval_cases d <;> rfl

theorem foldl_toDigitsCore (fuel : Nat) : ∀ (n : Nat) (ds : List Char), n < fuel →
    List.foldl (fun acc c => acc * 10 + (c.toNat - 48)) 0 (Nat.toDigitsCore 10 fuel n ds)
      = List.foldl (fun acc c => acc * 10 + (c.toNat - 48)) n ds := by
  induction fuel with
  | zero => intro n ds h; omega
  | succ f ih =>
    intro n ds h
    have hd : (Nat.digitChar (n % 10)).toNat - 48 = n % 10 :=
      digitChar_toNat _ (Nat.mod_lt _ (by norm_num))
    simp only [Nat.toDigitsCore]
    split
    · rename_i h0
      simp only [List.foldl_cons, hd]
      congr 1
      omega
    · rename_i h0
      rw [ih (n / 10) _ (by omega)]
      simp only [List.foldl_cons, hd]
      congr 1
      omega

theorem all_toDigitsCore (fuel : Nat) : ∀ (n : Nat) (ds : List Char),
    ds.all Char.isDigit = true → (Nat.toDigitsCore 10 fuel n ds).all Char.isDigit = true := by
  induction fuel with
  | zero => intro n ds h; simpa [Nat.toDigitsCore] using h
  | succ f ih =>
    intro n ds h
    have hd : (Nat.digitChar (n % 10)).isDigit = true :=
      digitChar_isDigit _ (Nat.mod_lt _ (by norm_num))
    simp only [Nat.toDigitsCore]
    split
    · simp only [List.all_cons, hd, h, Bool.and_self]
    · exact ih _ _ (by simp only [List.all_cons, hd, h, Bool.and_self])

theorem toDigitsCore_ne_nil (fuel n : Nat) (ds : List Char) :
    Nat.toDigitsCore 10 (fuel + 1) n ds ≠ [] := by
  induction fuel generalizing n ds with
  | zero => simp [Nat.toDigitsCore]
  | succ f ih =>
    rw [Nat.toDigitsCore]
    split
    · simp
    · exact ih _ _

/-- Parsing the decimal rendering of a natural number gives the number back. -/
theorem stringToNumber_repr (k : Nat) : stringToNumber (Nat.repr k) = some (.int k) := by
  have hne : Nat.toDigitsCore 10 (k + 1) k [] ≠ [] := toDigitsCore_ne_nil k k []
  have hall := all_toDigitsCore (k + 1) k [] (by simp)
  have hval := foldl_toDigitsCore (k + 1) k [] (by omega)
  simp only [stringToNumber, Nat.repr, Nat.toDigits, List.asString, if_neg hne, hall, if_true,
    parseDigits, hval, List.foldl_nil]

theorem repr_ne_empty (k : Nat) : Nat.repr k ≠ "" := by
  intro h
  have hne : Nat.toDigitsCore 10 (k + 1) k [] ≠ [] := toDigitsCore_ne_nil k k []
  apply hne
  have := congrArg String.data h
  simpa [Nat.repr, Nat.toDigits, List.asString] using this

/-! ## Pagination arithmetic -/

theorem ceilDiv_four (n : Nat) : ceilDiv n limit = ⌈(n : ℚ) / 4⌉₊ := by
  apply le_antisymm
  · have h1 : (n : ℚ) / 4 ≤ (⌈(n : ℚ) / 4⌉₊ : ℚ) := Nat.le_ceil _
    have h2 : (n : ℚ) ≤ ((4 * ⌈(n : ℚ) / 4⌉₊ : ℕ) : ℚ) := by
      push_cast
      linarith
    have h3 : n ≤ 4 * ⌈(n : ℚ) / 4⌉₊ := by exact_mod_cast h2
    simp only [ceilDiv, limit]
    omega
  · rw [Nat.ceil_le]
    have h3 : n ≤ 4 * ceilDiv n limit := by
      simp only [ceilDiv, limit]
      omega
    have h2 : (n : ℚ) ≤ ((4 * ceilDiv n limit : ℕ) : ℚ) := by exact_mod_cast h3
    push_cast at h2
    linarith

theorem length_sortCreatedDesc (db : List Store) : (sortCreatedDesc db).length = db.length := by
  simp [sortCreatedDesc, List.length_insertionSort]

theorem length_findPage (db : List Store) (reviews : List Review) (skip lim : Nat) :
    (findPage db reviews skip lim).length = min lim (db.length - skip) := by
  simp [findPage, length_sortCreatedDesc]

theorem skipOf_int (page : JSValue) (z : Int) (h : toNumber page = some (.int z)) :
    skipOf page = some (.int (z * 4 - 4)) := by
  simp [skipOf, h, JSNum.mul, JSNum.sub, limit]

theorem pageOf_some (s : String) (h : s ≠ "") : pageOf (some s) = .str s := by
  simp [pageOf, orDefault, h]

/-! ## Double rounding -/

theorem ulpExp_small (fuel m : Nat) (h : m < 2 ^ 53) : ulpExp fuel m = 0 := by
  cases fuel with
  | zero => rfl
  | succ f => simp only [ulpExp, if_pos h]

theorem ulpExp_le_two (fuel m : Nat) (h : m < 2 ^ 55) : ulpExp fuel m ≤ 2 := by
  cases fuel with
  | zero => simp [ulpExp]
  | succ f =>
    simp only [ulpExp]
    split
    · omega
    · have h2 : ulpExp f (m / 2) ≤ 1 := by
        cases f with
        | zero => simp [ulpExp]
        | succ g =>
          simp only [ulpExp]
          split
          · omega
          · have : ulpExp g (m / 2 / 2) = 0 := ulpExp_small g _ (by omega)
            omega
      omega

/-- An integer that is a multiple of the spacing of the doubles around it is a double. -/
theorem roundNat_of_dvd (m : Nat) (h : 2 ^ ulpExp m m ∣ m) : roundNat m = m := by
  have hr : m % 2 ^ ulpExp m m = 0 := Nat.mod_eq_zero_of_dvd h
  have hpos : 0 < 2 ^ ulpExp m m := pow_pos (by norm_num) _
  simp only [roundNat, hr, Nat.mul_zero, hpos, if_true]
  exact Nat.div_mul_cancel h

theorem roundNat_four_mul (k : Nat) (h : k ≤ 2 ^ 53) : roundNat (4 * k) = 4 * k := by
  rcases Nat.lt_or_ge k (2 ^ 53) with hk | hk
  · apply roundNat_of_dvd
    have he : ulpExp (4 * k) (4 * k) ≤ 2 := ulpExp_le_two _ _ (by omega)
    exact Dvd.dvd.mul_right (Nat.pow_dvd_pow 2 he) k
  · have : k = 2 ^ 53 := le_antisymm h hk
    subst this
    decide

theorem roundNat_small (k : Nat) (h : k ≤ 2 ^ 53) : roundNat k = k := by
  rcases Nat.lt_or_ge k (2 ^ 53) with hk | hk
  · apply roundNat_of_dvd
    rw [ulpExp_small _ _ hk]
    simp
  · have : k = 2 ^ 53 := le_antisymm h hk
    subst this
    decide

/-- Integers of magnitude up to 2^53 are doubles. -/
theorem toDouble_small (z : Int) (h : z.natAbs ≤ 2 ^ 53) : toDouble z = some z := by
  have hb : z.natAbs < 10 ^ 20 := by omega
  simp only [toDouble, hb, if_true, roundNat_small _ h]
  congr 1
  split <;> omega

/-- Four times an integer of magnitude up to 2^53 is a double. -/
theorem toDouble_four_mul (z : Int) (h : z.natAbs ≤ 2 ^ 53) :
    toDouble (z * 4) = some (z * 4) := by
  have hn : (z * 4).natAbs = 4 * z.natAbs := by omega
  have hb : 4 * z.natAbs < 10 ^ 20 := by omega
  simp only [toDouble, hn, hb, if_true, roundNat_four_mul _ h]
  congr 1
  split <;> omega

/-- On a page of magnitude up to 2^53, with its predecessor in that range too, line 24
computes `4 * page - 4` without rounding. -/
theorem skipDouble_int (page : JSValue) (z : Int) (h : toNumber page = some (.int z))
    (hz : z.natAbs ≤ 2 ^ 53) (hz1 : (z - 1).natAbs ≤ 2 ^ 53) :
    skipDouble page = some (.int (z * 4 - 4)) := by
  have e1 : z * 4 - 4 = (z - 1) * 4 := by ring
  simp only [skipDouble, h, Option.some_bind, JSNum.toDouble, toDouble_small z hz, Option.map_some',
    JSNum.mul, limit, Nat.cast_ofNat, toDouble_four_mul z hz, JSNum.sub, e1,
    toDouble_four_mul (z - 1) hz1]

/-- The exact and the double computation of line 24 agree on such pages. -/
theorem skipDouble_eq_skipOf (page : JSValue) (z : Int) (h : toNumber page = some (.int z))
    (hz : z.natAbs ≤ 2 ^ 53) (hz1 : (z - 1).natAbs ≤ 2 ^ 53) :
    skipDouble page = skipOf page := by
  rw [skipDouble_int page z h hz hz1, skipOf_int page z h]

/-! ## Reading page parameters -/

theorem stringToNumber_digits (s : String) (hne : s ≠ "")
    (hd : s.data.all Char.isDigit = true) :
    stringToNumber s = some (.int (parseDigits s.data)) := by
  have h0 : s.data ≠ [] := by
    intro h
    apply hne
    cases s
    simp_all
  simp only [stringToNumber, if_neg h0, hd, if_true]

theorem stringToNumber_minus (ds : List Char) (hne : ds ≠ [])
    (hd : ds.all Char.isDigit = true) :
    stringToNumber ⟨'-' :: ds⟩ = some (.int (-(parseDigits ds : Int))) := by
  have h1 : ('-' :: ds).all Char.isDigit = false := by
    simp only [List.all_cons]
    have : Char.isDigit '-' = false := by decide
    simp [this]
  simp [stringToNumber, h1, hne, hd]

theorem stringToNumber_plus (ds : List Char) (hne : ds ≠ [])
    (hd : ds.all Char.isDigit = true) :
    stringToNumber ⟨'+' :: ds⟩ = some (.int (parseDigits ds)) := by
  have h1 : ('+' :: ds).all Char.isDigit = false := by
    simp only [List.all_cons]
    have : Char.isDigit '+' = false := by decide
    simp [this]
  simp [stringToNumber, h1, hne, hd]

theorem isAlpha_not_digit (c : Char) (h : c.isAlpha = true) :
    c.isDigit = false ∧ c ≠ '-' ∧ c ≠ '+' := by
  refine ⟨?_, ?_, ?_⟩
  · simp only [Char.isAlpha, Char.isUpper, Char.isLower, Char.isDigit, Bool.or_eq_true,
      Bool.and_eq_true, decide_eq_true_eq, Bool.and_eq_false_imp,
      decide_eq_false_iff_not] at h ⊢
    simp only [ge_iff_le, UInt32.le_def, BitVec.le_def] at h ⊢
    have e1 : (UInt32.toBitVec 65).toNat = 65 := rfl
    have e2 : (UInt32.toBitVec 90).toNat = 90 := rfl
    have e3 : (UInt32.toBitVec 97).toNat = 97 := rfl
    have e4 : (UInt32.toBitVec 122).toNat = 122 := rfl
    have e5 : (UInt32.toBitVec 48).toNat = 48 := rfl
    have e6 : (UInt32.toBitVec 57).toNat = 57 := rfl
    rw [e1, e2, e3, e4] at h
    rw [e5, e6]
    omega
  · rintro rfl
    exact absurd h (by decide)
  · rintro rfl
    exact absurd h (by decide)

theorem stringToNumber_letter (c : Char) (cs : List Char) (ha : c.isAlpha = true)
    (hI : c ≠ 'I') : stringToNumber ⟨c :: cs⟩ = some .nan := by
  obtain ⟨h1, h2, h3⟩ := isAlpha_not_digit c ha
  simp [stringToNumber, h1, h2, h3, ha, hI]

theorem mk_ne_empty (c : Char) (cs : List Char) : (⟨c :: cs⟩ : String) ≠ "" := by
  intro h
  have := congrArg String.data h
  simp at this

theorem storesPromise_int (db : List Store) (reviews : List Review) (page : JSValue) (p : Nat)
    (h : toNumber page = some (.int p)) (hp : 1 ≤ p) :
    storesPromise db reviews page = some (findPage db reviews ((p - 1) * 4) limit) := by
  have hz : (0 : Int) ≤ (p : Int) * 4 - 4 := by omega
  have ht : ((p : Int) * 4 - 4).toNat = (p - 1) * 4 := by omega
  simp [storesPromise, skipOf_int page p h, hz, ht]

/-- On an integer page `p ≥ 1`, `getStores` redirects when the selected page is empty and
`p ≠ 1`, and renders otherwise. -/
theorem getStores_int (db : List Store) (reviews : List Review) (pageParam : Option String)
    (p : Nat) (h : toNumber (pageOf pageParam) = some (.int p)) (hp : 1 ≤ p) :
    getStores db reviews pageParam =
      if db.length ≤ (p - 1) * 4 ∧ p ≠ 1 then
        .sent (.redirect (pageOf pageParam).toStr (ceilDiv db.length limit)
          (pageUrl (ceilDiv db.length limit)))
      else
        .sent (.render "Stores" (findPage db reviews ((p - 1) * 4) limit) (pageOf pageParam)
          (ceilDiv db.length limit) db.length) := by
  have hlen : (findPage db reviews ((p - 1) * 4) limit).length = 0 ↔ db.length ≤ (p - 1) * 4 := by
    rw [length_findPage]
    simp only [limit]
    omega
  have htr : (JSNum.int ((p : Int) * 4 - 4)).truthy = true ↔ p ≠ 1 := by
    simp only [JSNum.truthy, decide_eq_true_eq]
    omega
  simp only [getStores, skipOf_int _ p h, storesPromise_int db reviews _ p h hp, promiseAll, await,
    destructurePair, countPromise, hlen, htr]

theorem getStores_beyond (db : List Store) (reviews : List Review) (s : String) (p : Nat)
    (hn : 0 < db.length) (hs : stringToNumber s = some (.int p))
    (hp : ⌈(db.length : ℚ) / 4⌉₊ < p) :
    getStores db reviews (some s) =
      .sent (.redirect s ⌈(db.length : ℚ) / 4⌉₊ (pageUrl ⌈(db.length : ℚ) / 4⌉₊)) := by
  rw [← ceilDiv_four] at hp ⊢
  have hne : s ≠ "" := by
    rintro rfl
    have h0 : stringToNumber "" = some (.int 0) := by decide
    rw [h0] at hs
    simp only [Option.some.injEq, JSNum.int.injEq] at hs
    omega
  have hpage : pageOf (some s) = .str s := pageOf_some s hne
  have hnum : toNumber (pageOf (some s)) = some (.int p) := by rw [hpage]; exact hs
  have hc : db.length ≤ (p - 1) * 4 ∧ p ≠ 1 := by
    simp only [ceilDiv, limit] at hp
    omega
  rw [getStores_int db reviews (some s) p hnum (by omega), if_pos hc, hpage]
  rfl

theorem getStores_last (db : List Store) (reviews : List Review) (s : String)
    (hn : 0 < db.length) (hs : stringToNumber s = some (.int ⌈(db.length : ℚ) / 4⌉₊)) :
    getStores db reviews (some s) =
        .sent (.render "Stores" (findPage db reviews ((⌈(db.length : ℚ) / 4⌉₊ - 1) * 4) limit)
          (.str s) ⌈(db.length : ℚ) / 4⌉₊ db.length) ∧
      0 < (findPage db reviews ((⌈(db.length : ℚ) / 4⌉₊ - 1) * 4) limit).length := by
  rw [← ceilDiv_four] at hs ⊢
  have hpos : 1 ≤ ceilDiv db.length limit := by
    simp only [ceilDiv, limit]
    omega
  have hne : s ≠ "" := by
    rintro rfl
    have h0 : stringToNumber "" = some (.int 0) := by decide
    rw [h0] at hs
    simp only [Option.some.injEq, JSNum.int.injEq] at hs
    omega
  have hpage : pageOf (some s) = .str s := pageOf_some s hne
  have hnum : toNumber (pageOf (some s)) = some (.int (ceilDiv db.length limit)) := by
    rw [hpage]; exact hs
  have hc : ¬ (db.length ≤ (ceilDiv db.length limit - 1) * 4 ∧ ceilDiv db.length limit ≠ 1) := by
    simp only [ceilDiv, limit]
    omega
  refine ⟨?_, ?_⟩
  · rw [getStores_int db reviews (some s) _ hnum hpos, if_neg hc, hpage]
  · rw [length_findPage]
    simp only [ceilDiv, limit]
    omega

/-! ## Claims on getStores -/

/-- C2: for every dataset of n > 0 stores and every page parameter whose numeric value p
exceeds ceil(n/4), `getStores` neither renders nor fails: it sends a redirect to page
ceil(n/4). -/
theorem getStores_redirects_beyond_last_page (db : List Store) (reviews : List Review)
    (s : String) (p : Nat) (hn : 0 < db.length) (hs : stringToNumber s = some (.int p))
    (hp : ⌈(db.length : ℚ) / 4⌉₊ < p) :
    getStores db reviews (some s) =
      .sent (.redirect s ⌈(db.length : ℚ) / 4⌉₊ (pageUrl ⌈(db.length : ℚ) / 4⌉₊)) :=
  getStores_beyond db reviews s p hn hs hp

/-- With 5 stores, page 3 redirects to page 2. -/
theorem getStores_redirects_beyond_last_page_witness :
    (sampleStores 5).length = 5 ∧
      getStores (sampleStores 5) [] (some "3") = .sent (.redirect "3" 2 "/stores/page/2") := by
  have h := getStores_redirects_beyond_last_page (sampleStores 5) [] "3" 3 (by decide)
    (by decide) (by rw [← ceilDiv_four]; decide)
  rw [← ceilDiv_four] at h
  exact ⟨rfl, h⟩

/-- C3 (counterexample): for the page "9007199254740993" the skip computed on line 24 is
36028797018963964, which is not (page - 1) * 4 = 36028797018963968: the page is read as
the double 9007199254740992. -/
theorem getStores_skip_rounds_large_page :
    toNumber (pageOf (some "9007199254740993")) = some (.int 9007199254740993) ∧
    skipDouble (pageOf (some "9007199254740993")) = some (.int 36028797018963964) ∧
    (36028797018963964 : Int) ≠ (9007199254740993 - 1) * 4 := by
  decide

/-- C3 (amended): for every page p with 1 ≤ p ≤ 2^53 and every dataset of n stores, the
query built by `getStores` uses skip = (p-1)*4, in double arithmetic as on the exact
integers, and limit 4, and selects min(4, max(0, n - (p-1)*4)) stores. -/
theorem getStores_page_query (db : List Store) (reviews : List Review)
    (pageParam : Option String) (p : Nat) (hp : 1 ≤ p) (hb : p ≤ 2 ^ 53)
    (hpage : toNumber (pageOf pageParam) = some (.int p)) :
    skipDouble (pageOf pageParam) = some (.int (((p : Int) - 1) * 4)) ∧
    skipOf (pageOf pageParam) = some (.int (((p : Int) - 1) * 4)) ∧ limit = 4 ∧
      ∃ stores, storesPromise db reviews (pageOf pageParam) = some stores ∧
        (stores.length : Int) = min 4 (max 0 ((db.length : Int) - ((p : Int) - 1) * 4)) := by
  have e : (p : Int) * 4 - 4 = ((p : Int) - 1) * 4 := by ring
  refine ⟨?_, ?_, rfl, _, storesPromise_int db reviews _ p hpage hp, ?_⟩
  · rw [skipDouble_int _ p hpage (by omega) (by omega), e]
  · rw [skipOf_int _ p hpage, e]
  · rw [length_findPage]
    simp only [limit]
    omega

/-- With 5 stores, page 1 selects 4 stores and page 2 selects 1 store, with skip 4. -/
theorem getStores_page_query_witness :
    (∃ stores, storesPromise (sampleStores 5) [] (pageOf none) = some stores ∧
      stores.length = 4) ∧
    (∃ stores, storesPromise (sampleStores 5) [] (pageOf (some "2")) = some stores ∧
      stores.length = 1) ∧
    skipDouble (pageOf (some "2")) = some (.int 4) := by
  have h5 : (sampleStores 5).length = 5 := rfl
  obtain ⟨_, _, _, s1, h1, l1⟩ :=
    getStores_page_query (sampleStores 5) [] none 1 (by decide) (by decide) (by decide)
  obtain ⟨d2, _, _, s2, h2, l2⟩ :=
    getStores_page_query (sampleStores 5) [] (some "2") 2 (by decide) (by decide) (by decide)
  rw [h5] at l1 l2
  exact ⟨⟨s1, h1, by omega⟩, ⟨s2, h2, by omega⟩, d2⟩

/-- C7 (counterexample): the parameters "0", "-1" and "abc" are not replaced by the
default: the page stays the string given, and the skip is -4, -8 and NaN. -/
theorem getStores_page_invalid_not_defaulted :
    pageOf (some "0") ≠ .num (.int 1) ∧
    skipOf (pageOf (some "0")) = some (.int (-4)) ∧
    skipOf (pageOf (some "-1")) = some (.int (-8)) ∧
    skipOf (pageOf (some "abc")) = some .nan := by
  decide

/-- C7 (amended): the page defaults to 1, with skip 0, when the page parameter is absent
or the empty string. A non-empty parameter is kept as given: when it is a run of decimal
digits of value z < 2^53, alone or after a sign, the skip is 4z - 4 (after `+` or no
sign) or -4z - 4 (after `-`), in double arithmetic as on the exact integers; when it
starts with an ASCII letter other than `I`, the skip is NaN. -/
theorem getStores_page_default :
    (pageOf none = .num (.int 1) ∧ skipDouble (pageOf none) = some (.int 0) ∧
      skipOf (pageOf none) = some (.int 0)) ∧
    (pageOf (some "") = .num (.int 1) ∧ skipDouble (pageOf (some "")) = some (.int 0) ∧
      skipOf (pageOf (some "")) = some (.int 0)) ∧
    (∀ s : String, s ≠ "" → pageOf (some s) = .str s) ∧
    (∀ s : String, s ≠ "" → s.data.all Char.isDigit = true → parseDigits s.data < 2 ^ 53 →
      skipDouble (pageOf (some s)) = some (.int (4 * (parseDigits s.data : Int) - 4)) ∧
      skipOf (pageOf (some s)) = some (.int (4 * (parseDigits s.data : Int) - 4))) ∧
    (∀ ds : List Char, ds ≠ [] → ds.all Char.isDigit = true → parseDigits ds < 2 ^ 53 →
      skipDouble (pageOf (some ⟨'+' :: ds⟩)) = some (.int (4 * (parseDigits ds : Int) - 4)) ∧
      skipOf (pageOf (some ⟨'+' :: ds⟩)) = some (.int (4 * (parseDigits ds : Int) - 4))) ∧
    (∀ ds : List Char, ds ≠ [] → ds.all Char.isDigit = true → parseDigits ds < 2 ^ 53 →
      skipDouble (pageOf (some ⟨'-' :: ds⟩)) = some (.int (-4 * (parseDigits ds : Int) - 4)) ∧
      skipOf (pageOf (some ⟨'-' :: ds⟩)) = some (.int (-4 * (parseDigits ds : Int) - 4))) ∧
    (∀ (c : Char) (cs : List Char), c.isAlpha = true → c ≠ 'I' →
      skipDouble (pageOf (some ⟨c :: cs⟩)) = some .nan ∧
      skipOf (pageOf (some ⟨c :: cs⟩)) = some .nan) := by
  refine ⟨by decide, by decide, pageOf_some, ?_, ?_, ?_, ?_⟩
  · intro s hne hd hb
    have hn : toNumber (.str s) = some (.int (parseDigits s.data)) :=
      stringToNumber_digits s hne hd
    have e : (parseDigits s.data : Int) * 4 - 4 = 4 * (parseDigits s.data : Int) - 4 := by ring
    rw [pageOf_some s hne, skipDouble_int _ _ hn (by omega) (by omega), skipOf_int _ _ hn, e]
    exact ⟨rfl, rfl⟩
  · intro ds hne hd hb
    have hn : toNumber (.str ⟨'+' :: ds⟩) = some (.int (parseDigits ds)) :=
      stringToNumber_plus ds hne hd
    have e : (parseDigits ds : Int) * 4 - 4 = 4 * (parseDigits ds : Int) - 4 := by ring
    rw [pageOf_some _ (mk_ne_empty _ _), skipDouble_int _ _ hn (by omega) (by omega),
      skipOf_int _ _ hn, e]
    exact ⟨rfl, rfl⟩
  · intro ds hne hd hb
    have hn : toNumber (.str ⟨'-' :: ds⟩) = some (.int (-(parseDigits ds : Int))) :=
      stringToNumber_minus ds hne hd
    have e : -(parseDigits ds : Int) * 4 - 4 = -4 * (parseDigits ds : Int) - 4 := by ring
    rw [pageOf_some _ (mk_ne_empty _ _), skipDouble_int _ _ hn (by omega) (by omega),
      skipOf_int _ _ hn, e]
    exact ⟨rfl, rfl⟩
  · intro c cs ha hI
    have hn : toNumber (.str ⟨c :: cs⟩) = some .nan := stringToNumber_letter c cs ha hI
    rw [pageOf_some _ (mk_ne_empty _ _)]
    simp [skipDouble, skipOf, hn, JSNum.toDouble, JSNum.mul, JSNum.sub]

/-- The parameter "2" is kept and gives skip 4; "0" gives skip -4, "-1" gives skip -8 and
"abc" gives NaN. -/
theorem getStores_page_default_witness :
    pageOf (some "2") = .str "2" ∧ skipDouble (pageOf (some "2")) = some (.int 4) ∧
    skipDouble (pageOf (some "0")) = some (.int (-4)) ∧
    skipDouble (pageOf (some "-1")) = some (.int (-8)) ∧
    skipDouble (pageOf (some "abc")) = some .nan :=
  ⟨getStores_page_default.2.2.1 "2" (by decide),
   (getStores_page_default.2.2.2.1 "2" (by decide) (by decide) (by decide)).1,
   (getStores_page_default.2.2.2.1 "0" (by decide) (by decide) (by decide)).1,
   (getStores_page_default.2.2.2.2.2.1 ['1'] (by decide) (by decide) (by decide)).1,
   (getStores_page_default.2.2.2.2.2.2 'a' ['b', 'c'] (by decide) (by decide)).1⟩

/-- C9: on an empty dataset, a request for page 1 (skip 0, no store selected) is not
redirected: `getStores` renders the empty list with count 0 and page count
ceil(0/4) = 0. -/
theorem getStores_empty_dataset (reviews : List Review) (pageParam : Option String)
    (h : toNumber (pageOf pageParam) = some (.int 1)) :
    skipOf (pageOf pageParam) = some (.int 0) ∧
    getStores [] reviews pageParam =
      .sent (.render "Stores" [] (pageOf pageParam) ⌈((0 : ℕ) : ℚ) / 4⌉₊ 0) ∧
    ⌈((0 : ℕ) : ℚ) / 4⌉₊ = 0 := by
  have hc : ⌈((0 : ℕ) : ℚ) / 4⌉₊ = 0 := by rw [← ceilDiv_four]; rfl
  refine ⟨?_, ?_, hc⟩
  · rw [skipOf_int _ 1 h]; rfl
  · rw [hc, getStores_int [] reviews pageParam 1 h le_rfl]
    rfl

/-- Page 1 of the empty dataset, with the parameter absent and with the parameter "1". -/
theorem getStores_empty_dataset_witness :
    getStores [] [] none = .sent (.render "Stores" [] (.num (.int 1)) 0 0) ∧
    getStores [] [] (some "1") = .sent (.render "Stores" [] (.str "1") 0 0) := by
  have h1 := (getStores_empty_dataset [] none (by decide)).2
  have h2 := (getStores_empty_dataset [] (some "1") (by decide)).2
  have hc := h1.2
  have e1 := h1.1
  have e2 := h2.1
  rw [hc] at e1 e2
  exact ⟨e1, e2⟩

/-- C10: for every dataset of n > 0 stores, the page ceil(n/4) named by the redirect
(`/stores/page/` followed by the decimal rendering of ceil(n/4)) selects at least one
store and is rendered, not redirected; so a request beyond the last page, which is
redirected there, is redirected once on an unchanged dataset. -/
theorem getStores_redirect_target_renders (db : List Store) (reviews : List Review)
    (hn : 0 < db.length) :
    (∃ stores, stores ≠ [] ∧
      getStores db reviews (some (Nat.repr ⌈(db.length : ℚ) / 4⌉₊)) =
        .sent (.render "Stores" stores (.str (Nat.repr ⌈(db.length : ℚ) / 4⌉₊))
          ⌈(db.length : ℚ) / 4⌉₊ db.length)) ∧
    (∀ (s : String) (p : Nat), stringToNumber s = some (.int p) →
      ⌈(db.length : ℚ) / 4⌉₊ < p →
      getStores db reviews (some s) =
        .sent (.redirect s ⌈(db.length : ℚ) / 4⌉₊
          ("/stores/page/" ++ Nat.repr ⌈(db.length : ℚ) / 4⌉₊))) := by
  refine ⟨?_, ?_⟩
  · obtain ⟨h1, h2⟩ := getStores_last db reviews _ hn (stringToNumber_repr _)
    refine ⟨_, ?_, h1⟩
    intro h
    rw [h] at h2
    exact absurd h2 (by decide)
  · intro s p hs hp
    exact getStores_beyond db reviews s p hn hs hp

/-- With 5 stores: page 3 is redirected to page 2, and page 2 is rendered with one store. -/
theorem getStores_redirect_target_renders_witness :
    getStores (sampleStores 5) [] (some "3") = .sent (.redirect "3" 2 "/stores/page/2") ∧
    ∃ stores, stores ≠ [] ∧
      getStores (sampleStores 5) [] (some "2") = .sent (.render "Stores" stores (.str "2") 2 5) := by
  have h := getStores_redirect_target_renders (sampleStores 5) [] (by decide)
  have hc : ⌈((sampleStores 5).length : ℚ) / 4⌉₊ = 2 := by rw [← ceilDiv_four]; rfl
  rw [hc] at h
  exact ⟨h.2 "3" 3 (by decide) (by decide), h.1⟩

/-! ## Claims on updateStore, heartStore, getStoresByTag and the Review schema -/

/-- C1: `updateStore` does not consult `confirmOwner`. The requester `u2` updating the
store of author `u1` gets the success redirect and the change is written to the
collection, while `confirmOwner`, and `editStore` which calls it, reject that requester. -/
theorem updateStore_skips_owner_check (runValidators : UpdateBody → Bool)
    (hv : runValidators foreignUpdateBody = true) :
    (sampleStore 1).author ≠ foreignUpdate.user._id ∧
    confirmOwner (sampleStore 1) foreignUpdate.user =
      .error (.error "You Must own a store in order to edit it!") ∧
    editStore [sampleStore 1] foreignUpdate =
      .threw (.error "You Must own a store in order to edit it!") ∧
    updateStore runValidators [sampleStore 1] foreignUpdate =
      (.sent (.redirect "Hijacked" "/stores/1/edit"), [hijackedStore]) ∧
    [hijackedStore] ≠ [sampleStore 1] := by
  have hu : updateStore runValidators [sampleStore 1] foreignUpdate =
      (.sent (.redirect "Hijacked" "/stores/1/edit"), [hijackedStore]) := by
    simp only [updateStore, foreignUpdate, foreignUpdateBody] at hv ⊢
    simp only [hv, if_true]
    rfl
  exact ⟨by decide, rfl, by decide, hu, by decide⟩

/-- The same request with validators that accept every update. -/
theorem updateStore_skips_owner_check_witness :
    updateStore (fun _ => true) [sampleStore 1] foreignUpdate =
      (.sent (.redirect "Hijacked" "/stores/1/edit"), [hijackedStore]) :=
  (updateStore_skips_owner_check (fun _ => true) rfl).2.2.2.1

/-- C4 (counterexample): with the store id sent in upper-case hexadecimal digits, line
163 does not find it among the hearts and `$addToSet` is issued on every call. A hearted
store is not removed, and from no hearts two calls leave one heart. -/
theorem heartStore_upper_case_not_toggled :
    castObjectId heartedIdUpper = some heartedId ∧
    heartStore ⟨"u1", [heartedId]⟩ ⟨"u1", [heartedId]⟩ heartedIdUpper =
      some ⟨"u1", [heartedId]⟩ ∧
    heartStore ⟨"u1", []⟩ ⟨"u1", []⟩ heartedIdUpper = some ⟨"u1", [heartedId]⟩ ∧
    heartStore ⟨"u1", [heartedId]⟩ ⟨"u1", [heartedId]⟩ heartedIdUpper ≠ some ⟨"u1", []⟩ := by
  decide

/-- C4 (amended): for a store id sent in canonical form (the 24 lower-case hexadecimal
digits that the cast gives back unchanged), `heartStore` applied twice, the second call
seeing the hearts the first one stored, leaves the hearts set as it was; the first call
adds the store when it is not hearted and removes it when it is. -/
theorem heartStore_involutive (u : ObjectId) (H : List ObjectId) (s : ObjectId)
    (hs : castObjectId s = some s) :
    ∃ first second : User,
      heartStore ⟨u, H⟩ ⟨u, H⟩ s = some first ∧ heartStore first first s = some second ∧
      (∀ x, x ∈ second.hearts ↔ x ∈ H) ∧
      (s ∉ H → ∀ x, x ∈ first.hearts ↔ x ∈ H ∨ x = s) ∧
      (s ∈ H → ∀ x, x ∈ first.hearts ↔ x ∈ H ∧ x ≠ s) := by
  have key : ∀ K : List ObjectId, heartStore ⟨u, K⟩ ⟨u, K⟩ s =
      some (if s ∈ K then ⟨u, pull K s⟩ else ⟨u, addToSet K s⟩) := by
    intro K
    have hmap : List.map objectIdToString K = K := List.map_id K
    by_cases hK : s ∈ K
    · simp [heartStore, hs, hmap, hK]
    · simp [heartStore, hs, hmap, hK]
  by_cases hm : s ∈ H
  · have hn : s ∉ pull H s := by simp [pull]
    refine ⟨⟨u, pull H s⟩, ⟨u, pull H s ++ [s]⟩, ?_, ?_, ?_, fun h => absurd hm h,
      fun _ x => by simp [pull]⟩
    · rw [key H, if_pos hm]
    · rw [key (pull H s), if_neg hn]
      simp [addToSet, hn]
    · intro x
      by_cases hx : x = s
      · simp [hx, hm]
      · simp [pull, hx]
  · have hin : s ∈ H ++ [s] := by simp
    have hp : pull (H ++ [s]) s = H := by
      simp only [pull, List.filter_append]
      have : List.filter (fun y => decide (y ≠ s)) H = H := by
        rw [List.filter_eq_self]
        intro a ha
        simp only [ne_eq, decide_not, Bool.not_eq_eq_eq_not, Bool.not_true,
          decide_eq_false_iff_not]
        rintro rfl
        exact hm ha
      rw [this]
      simp
    refine ⟨⟨u, H ++ [s]⟩, ⟨u, H⟩, ?_, ?_, fun _ => Iff.rfl, fun _ x => by simp,
      fun h => absurd h hm⟩
    · rw [key H, if_neg hm]
      simp [addToSet, hm]
    · rw [key (H ++ [s]), if_pos hin, hp]

/-- A user with no hearts toggles a store twice, the id sent in canonical form: the
hearts go from empty to that store and back to empty. -/
theorem heartStore_involutive_witness :
    castObjectId heartedId = some heartedId ∧
    heartStore ⟨"u1", []⟩ ⟨"u1", []⟩ heartedId = some ⟨"u1", [heartedId]⟩ ∧
    heartStore ⟨"u1", [heartedId]⟩ ⟨"u1", [heartedId]⟩ heartedId = some ⟨"u1", []⟩ ∧
    ∃ first second : User,
      heartStore ⟨"u1", []⟩ ⟨"u1", []⟩ heartedId = some first ∧
      heartStore first first heartedId = some second ∧
      (∀ x, x ∈ second.hearts ↔ x ∈ ([] : List ObjectId)) := by
  obtain ⟨first, second, h1, h2, h3, _, _⟩ :=
    heartStore_involutive "u1" [] heartedId (by decide)
  exact ⟨by decide, by decide, by decide, first, second, h1, h2, h3⟩

/-- C5: `getStoresByTag` never renders: for every collection and every tag, present or
absent, destructuring the promise on line 115 throws a type error. -/
theorem getStoresByTag_throws (db : List Store) (tag : Option String) :
    getStoresByTag db tag = .threw (.typeError "object is not iterable") := by
  rfl

/-- C6: with the other fields valid, creating a review with rating `r` succeeds exactly
when 1 ≤ r ≤ 5, and otherwise fails with validation errors on `rating` only. -/
theorem createReview_rating_range (now : Nat) (c : Option Nat) (a s : ObjectId) (t : String)
    (r : ℚ) (ht : t ≠ "") :
    (1 ≤ r ∧ r ≤ 5 →
      createReview now ⟨c, some a, some s, some t, some r⟩ =
        .ok { created := c.getD now, author := a, store := s, text := t, rating := some r }) ∧
    (¬ (1 ≤ r ∧ r ≤ 5) →
      ∃ errs, errs ≠ [] ∧ (∀ e ∈ errs, e.1 = "rating") ∧
        createReview now ⟨c, some a, some s, some t, some r⟩ = .error errs) := by
  constructor
  · rintro ⟨h1, h5⟩
    have e : reviewSchemaErrors ⟨c, some a, some s, some t, some r⟩ = [] := by
      simp [reviewSchemaErrors, ht, not_lt.mpr h1, not_lt.mpr h5]
    simp [createReview, e]
  · intro h
    by_cases h1 : r < 1
    · have h5 : ¬ 5 < r := by linarith
      have e : reviewSchemaErrors ⟨c, some a, some s, some t, some r⟩ = [("rating", "min")] := by
        simp [reviewSchemaErrors, ht, h1, h5]
      exact ⟨[("rating", "min")], by simp, by simp, by simp [createReview, e]⟩
    · have h5 : 5 < r := by
        by_contra h5
        exact h ⟨not_lt.mp h1, not_lt.mp h5⟩
      have e : reviewSchemaErrors ⟨c, some a, some s, some t, some r⟩ = [("rating", "max")] := by
        simp [reviewSchemaErrors, ht, h1, h5]
      exact ⟨[("rating", "max")], by simp, by simp, by simp [createReview, e]⟩

/-- Ratings 1 and 5 are accepted, ratings 0 and 6 are rejected. -/
theorem createReview_rating_range_witness :
    createReview 7 ⟨none, some "u1", some "1", some "good", some 1⟩ =
      .ok { created := 7, author := "u1", store := "1", text := "good", rating := some 1 } ∧
    createReview 7 ⟨none, some "u1", some "1", some "good", some 5⟩ =
      .ok { created := 7, author := "u1", store := "1", text := "good", rating := some 5 } ∧
    (∃ errs, errs ≠ [] ∧ (∀ e ∈ errs, e.1 = "rating") ∧
      createReview 7 ⟨none, some "u1", some "1", some "good", some 0⟩ = .error errs) ∧
    (∃ errs, errs ≠ [] ∧ (∀ e ∈ errs, e.1 = "rating") ∧
      createReview 7 ⟨none, some "u1", some "1", some "good", some 6⟩ = .error errs) :=
  ⟨(createReview_rating_range 7 none "u1" "1" "good" 1 (by decide)).1 (by norm_num),
   (createReview_rating_range 7 none "u1" "1" "good" 5 (by decide)).1 (by norm_num),
   (createReview_rating_range 7 none "u1" "1" "good" 0 (by decide)).2 (by norm_num),
   (createReview_rating_range 7 none "u1" "1" "good" 6 (by decide)).2 (by norm_num)⟩

/-- C8 (counterexample): with the tag absent, a store whose `tags` array is empty is
matched by the filter. -/
theorem tagQuery_matches_empty_tags :
    untaggedStore.tags = some [] ∧
    (tagQuery none).matchesStore untaggedStore = true ∧
    findByTagQuery [untaggedStore] (tagQuery none) = [untaggedStore] := by
  decide

/-- C8 (amended): with the tag absent, the filter matches exactly the stores that have a
`tags` field, empty or not; with a non-empty tag, it matches exactly the stores whose
tags contain that exact tag. -/
theorem findByTagQuery_matches (db : List Store) (s : Store) :
    (s ∈ findByTagQuery db (tagQuery none) ↔ s ∈ db ∧ ∃ ts, s.tags = some ts) ∧
    (∀ t : String, t ≠ "" →
      (s ∈ findByTagQuery db (tagQuery (some t)) ↔ s ∈ db ∧ ∃ ts, s.tags = some ts ∧ t ∈ ts)) := by
  constructor
  · simp only [findByTagQuery, tagQuery, List.mem_filter, TagQuery.matchesStore]
    cases s.tags <;> simp
  · intro t ht
    simp only [findByTagQuery, tagQuery, ht, if_false, List.mem_filter, TagQuery.matchesStore]
    cases s.tags <;> simp

/-- The tag `cafe` selects the sample store, which carries it. -/
theorem findByTagQuery_matches_witness :
    sampleStore 1 ∈ findByTagQuery [sampleStore 1] (tagQuery (some "cafe")) :=
  ((findByTagQuery_matches [sampleStore 1] (sampleStore 1)).2 "cafe" (by decide)).2
    ⟨by decide, ["cafe"], rfl, by decide⟩

end GoodStores
